import Mathlib

/-!
# Verification of the paste-store HTTP application

Shallow embedding of `src/app.js` (an Express application exposing
list / fetch-by-id / create over an in-memory collection of "paste"
records, with centralized error handling), together with proofs of the
behavioural claims about it.

Modelling conventions:
* Parsed JSON request bodies are modelled by the inductive `JSVal`
  (JavaScript values reachable here: `undefined`, `null`, booleans,
  integer numbers, strings, objects, arrays).
* The Express pipeline (mounted middleware, routes, the not-found
  fallback and the terminal error handler) is flattened into the single
  step function `handle : AppState → Request → Response × AppState`,
  following the registration order in the source file.
* `next(err)` is modelled by constructing an `ErrVal` and passing it to
  `errorResponse`, the embedding of the final error-handling middleware.
* A JavaScript exception thrown while destructuring (`TypeError`) is
  modelled by `ErrVal.exn`: Express catches a synchronous throw and
  forwards the `Error` object, which carries a `message` property but no
  `status` property.
-/

/-- JavaScript values as far as this application can observe them.
Numbers are modelled as integers: every number the app manipulates
(record ids, the id counter) is an integer, and `NaN` is represented by
the `none` result of the numeric-coercion function `toNumber`. -/
inductive JSVal where
  | undefined : JSVal
  | null : JSVal
  | bool : Bool → JSVal
  | num : Int → JSVal
  | str : String → JSVal
  | obj : List (String × JSVal) → JSVal
  | arr : List JSVal → JSVal

/-- Property access `v[k]` on a value that is neither `null` nor
`undefined`: field lookup on objects (object literals in this program
have distinct keys, so first-match lookup is exact), `undefined` on
every other value. Access on `null`/`undefined` throws instead and is
handled by the destructuring functions below, never by `getProp`. -/
def getProp (v : JSVal) (k : String) : JSVal :=
  match v with
  | .obj fields =>
    match fields.lookup k with
    | some w => w
    | none => .undefined
  | _ => .undefined

/-- JavaScript truthiness of the values representable as `JSVal`. -/
def truthy : JSVal → Bool
  | .undefined => false
  | .null => false
  | .bool b => b
  | .num n => n != 0
  | .str s => !(s == "")
  | .obj _ => true
  | .arr _ => true

/-- Message of the `TypeError` thrown when destructuring from `null` or
`undefined`. Its exact text is JavaScript-engine specific; no theorem
below depends on it. -/
def destructureErrorMsg : String :=
  "Cannot destructure property of null or undefined"

/-- The destructuring pattern `const { data: {...} = {} } = body` from
the source: extracts `body.data`, substituting the empty object when
`data` is `undefined`, and throwing a `TypeError` (the `.error` case)
when `body` itself or `body.data` is `null`/`undefined` in a position
where the default does not apply. -/
def getData (body : JSVal) : Except String JSVal :=
  match body with
  | .undefined => .error destructureErrorMsg
  | .null => .error destructureErrorMsg
  | b =>
    match getProp b "data" with
    | .undefined => .ok (.obj [])
    | .null => .error destructureErrorMsg
    | d => .ok d

/-- A stored paste record. The create handler builds records with
exactly these seven fields; `syn` embeds the source field named
`syntax` (that name is a keyword in Lean). All non-id fields hold the
JavaScript value taken from the request body, possibly `undefined`. -/
structure Paste where
  id : Int
  name : JSVal
  syn : JSVal
  exposure : JSVal
  expiration : JSVal
  text : JSVal
  user_id : JSVal

/-- The mutable server state: the `pastes` array and the `lastPasteId`
counter. -/
structure AppState where
  pastes : List Paste
  lastPasteId : Int

/-- JSON response bodies this application writes: `{data: <record>}`,
`{data: [<records>]}`, or `{error: <message>}`. -/
inductive ResBody where
  | jsonData : Paste → ResBody
  | jsonList : List Paste → ResBody
  | jsonError : String → ResBody

/-- An HTTP response: status code plus JSON body. -/
structure Response where
  status : Nat
  body : ResBody

/-- An error value handed to `next(...)`: either a plain string, or an
object with (possibly absent) `status` and `message` properties, or a
thrown `Error` (which has a `message` but no `status`). -/
inductive ErrVal where
  | strE : String → ErrVal
  | objE : Option Nat → Option String → ErrVal
  | exn : String → ErrVal

/-- The general error handler:
`const { status = 500, message = "Something went wrong!" } = error;
res.status(status).json({ error: message });`
A plain string has neither a `status` nor a `message` property, so both
defaults apply; an `Error` object has a `message` but no `status`. -/
def errorResponse : ErrVal → Response
  | .strE _ => ⟨500, .jsonError "Something went wrong!"⟩
  | .objE st msg => ⟨st.getD 500, .jsonError (msg.getD "Something went wrong!")⟩
  | .exn m => ⟨500, .jsonError m⟩

/-- The code points `Number()` trims before parsing: ECMAScript
WhiteSpace (TAB, VT, FF, SP, NBSP, ZWNBSP and the Unicode Zs class) and
LineTerminator (LF, CR, LS, PS). -/
def jsWhitespace (c : Char) : Bool :=
  c = ' ' || c = '\t' || c = '\n' || c = '\r' || c = '\x0b' || c = '\x0c' ||
  c = '\u00A0' || c = '\u1680' ||
  (0x2000 ≤ c.toNat && c.toNat ≤ 0x200A) ||
  c = '\u2028' || c = '\u2029' || c = '\u202F' || c = '\u205F' ||
  c = '\u3000' || c = '\uFEFF'

/-- Strip leading and trailing JavaScript whitespace. -/
def trimWhite (cs : List Char) : List Char :=
  ((cs.dropWhile jsWhitespace).reverse.dropWhile jsWhitespace).reverse

/-- Split a longest prefix of decimal digits off a character list. -/
def splitDigits : List Char → List Char × List Char
  | [] => ([], [])
  | c :: cs =>
    if c.isDigit then (c :: (splitDigits cs).1, (splitDigits cs).2)
    else ([], c :: cs)

/-- The natural number denoted by a list of decimal digit characters
(accumulator style; callers guarantee every character is a digit). -/
def digitsToNat : List Char → Nat → Nat
  | [], acc => acc
  | c :: rest, acc => digitsToNat rest (acc * 10 + (c.toNat - 48))

/-- Exponent part of a decimal literal: empty remainder means exponent
0; otherwise `e`/`E`, an optional sign and at least one digit must
consume the whole remainder, else the literal is malformed (`none`). -/
def parseExp : List Char → Option Int
  | [] => some (0 : Int)
  | c :: cs =>
    if c = 'e' ∨ c = 'E' then
      match cs with
      | '+' :: ds =>
        if ds ≠ [] ∧ ds.all Char.isDigit then some ((digitsToNat ds 0 : Nat) : Int)
        else none
      | '-' :: ds =>
        if ds ≠ [] ∧ ds.all Char.isDigit then some (-((digitsToNat ds 0 : Nat) : Int))
        else none
      | ds =>
        if ds ≠ [] ∧ ds.all Char.isDigit then some ((digitsToNat ds 0 : Nat) : Int)
        else none
    else none

/-- An unsigned decimal literal `digits [. digits] [exp]` or
`. digits [exp]`, as the pair (mantissa, scale) whose value is
mantissa × 10 ^ scale; `none` when malformed. -/
def parseDec (cs : List Char) : Option (Nat × Int) :=
  match splitDigits cs with
  | (ip, rest1) =>
    match rest1 with
    | '.' :: rest2 =>
      match splitDigits rest2 with
      | (fp, rest3) =>
        if ip.isEmpty && fp.isEmpty then none
        else
          match parseExp rest3 with
          | some e => some (digitsToNat (ip ++ fp) 0, e - (fp.length : Int))
          | none => none
    | _ =>
      if ip.isEmpty then none
      else
        match parseExp rest1 with
        | some e => some (digitsToNat ip 0, e)
        | none => none

/-- The exact value of mantissa × 10 ^ scale when that value is an
integer, `none` otherwise (a non-integer value can never `===` an
integer id). -/
def decValue (mantissa : Nat) (scale : Int) : Option Int :=
  if 0 ≤ scale then some ((mantissa : Int) * 10 ^ scale.toNat)
  else if mantissa % 10 ^ (-scale).toNat = 0 then
    some ((mantissa / 10 ^ (-scale).toNat : Nat) : Int)
  else none

/-- A signless decimal literal evaluated to its integer value, when it
has one. -/
def parseDecValue (cs : List Char) : Option Int :=
  (parseDec cs).bind fun p => decValue p.1 p.2

/-- Value of one digit in the given radix (0-9, a-f, A-F), `none` when
the character is not a digit of that radix. -/
def radixDigitVal (base : Nat) (c : Char) : Option Nat :=
  let v :=
    if c.isDigit then some (c.toNat - 48)
    else if 'a' ≤ c && c ≤ 'f' then some (c.toNat - 87)
    else if 'A' ≤ c && c ≤ 'F' then some (c.toNat - 55)
    else none
  match v with
  | some d => if d < base then some d else none
  | none => none

/-- Radix literal body: every remaining character must be a digit of
the radix. -/
def parseRadix (base : Nat) : List Char → Nat → Option Nat
  | [], acc => some acc
  | c :: cs, acc =>
    match radixDigitVal base c with
    | some d => parseRadix base cs (acc * base + d)
    | none => none

/-- JavaScript numeric coercion `Number(s)` (the StringNumericLiteral
grammar), restricted to its integer-valued outcomes: whitespace is
trimmed; the empty remainder coerces to 0; a signed decimal literal
(digits, optional fraction, optional `e`/`E` exponent, e.g. "+1",
"1.", "1e0", "15e-1", ".5e1") or an unsigned `0x`/`0o`/`0b` radix
literal coerces to its value; `some n` is returned exactly when that
value is the integer `n`, and `none` when the string coerces to `NaN`,
to `±Infinity` ("Infinity" fails the grammar here, which coincides
with "no integer value"), or to a non-integer — none of which can
`===` an integer id. The model computes the literal's exact value,
whereas JS doubles round above 2^53 and overflow past ~1.8e308; the two
agree wherever the comparison target (a stored id: a seeded integer or
the small incremented counter) is exactly double-representable. -/
def toNumber (s : String) : Option Int :=
  match trimWhite s.data with
  | [] => some (0 : Int)
  | c :: cs =>
    if c = '+' then parseDecValue cs
    else if c = '-' then (parseDecValue cs).map (fun n => -n)
    else
      match cs with
      | x :: rest =>
        if c = '0' ∧ (x = 'x' ∨ x = 'X') then
          if rest.isEmpty then none
          else (parseRadix 16 rest 0).map (fun n : Nat => (n : Int))
        else if c = '0' ∧ (x = 'o' ∨ x = 'O') then
          if rest.isEmpty then none
          else (parseRadix 8 rest 0).map (fun n : Nat => (n : Int))
        else if c = '0' ∧ (x = 'b' ∨ x = 'B') then
          if rest.isEmpty then none
          else (parseRadix 2 rest 0).map (fun n : Nat => (n : Int))
        else parseDecValue (c :: x :: rest)
      | [] => parseDecValue [c]

/-- The linear search of the lookup middleware:
`pastes.find((paste) => paste.id === Number(pasteId))`. -/
def findPaste (ps : List Paste) (pid : String) : Option Paste :=
  match toNumber pid with
  | some n => ps.find? (fun p => p.id == n)
  | none => none

/-- The middleware mounted with `app.use("/pastes/:pasteId", ...)`: on a
match it writes `{data: foundPaste}` (default status 200) and ends the
exchange; otherwise it signals `{status: 404, message: "Paste id not
found: <pasteId>"}`. -/
def pastesLookup (st : AppState) (pid : String) : Response × AppState :=
  match findPaste st.pastes pid with
  | some p => (⟨200, .jsonData p⟩, st)
  | none =>
    (errorResponse (.objE (some 404) (some ("Paste id not found: " ++ pid))), st)

/-- The `bodyHasTextProperty` validation middleware: `none` models a
clean `next()` (control forwarded unchanged); `some e` models
`next(e)`. Destructuring `const { data: { text } = {} } = req.body`
throws when `req.body` or `req.body.data` is `null`, which Express
converts into a forwarded error. -/
def bodyHasTextProperty (body : JSVal) : Option ErrVal :=
  match getData body with
  | .error m => some (.exn m)
  | .ok d =>
    if truthy (getProp d "text") then none
    else some (.objE (some 400) (some "A 'text' property is required."))

/-- The record built by the `POST /pastes` route handler from the
destructured body fields and the incremented counter. -/
def mkPaste (d : JSVal) (newId : Int) : Paste :=
  { id := newId
    name := getProp d "name"
    syn := getProp d "syntax"
    exposure := getProp d "exposure"
    expiration := getProp d "expiration"
    text := getProp d "text"
    user_id := getProp d "user_id" }

/-- The `POST /pastes` route handler (reached only after
`bodyHasTextProperty` forwarded cleanly): destructures the six body
fields, assigns `id = ++lastPasteId`, pushes the new record and answers
201 `{data: newPaste}`. -/
def postPastes (st : AppState) (body : JSVal) : Response × AppState :=
  match getData body with
  | .error m => (errorResponse (.exn m), st)
  | .ok d =>
    let newPaste := mkPaste d (st.lastPasteId + 1)
    (⟨201, .jsonData newPaste⟩,
      ⟨st.pastes ++ [newPaste], st.lastPasteId + 1⟩)

/-- An incoming HTTP request: method (an uppercase verb string), the
path split at `/` into segments, and the parsed JSON body. -/
structure Request where
  method : String
  path : List String
  body : JSVal

/-- `req.originalUrl` as a function of the path segments. -/
def originalUrl (req : Request) : String :=
  "/" ++ String.intercalate "/" req.path

/-- ASCII lower-casing of one character, as Express's default
case-insensitive path matching (path-to-regexp without the `i`-removing
`caseSensitive` option) folds the letters of a path literal. -/
def asciiLowerChar (c : Char) : Char :=
  if 'A' ≤ c ∧ c ≤ 'Z' then Char.ofNat (c.toNat + 32) else c

/-- ASCII lower-casing of a path segment. -/
def asciiLower (s : String) : String := ⟨s.data.map asciiLowerChar⟩

/-- One request through the whole Express pipeline, in registration
order: `app.use("/pastes/:pasteId", ...)` (all methods, prefix match on
a path with at least one segment after the `pastes` literal),
`app.get("/pastes")`, `app.post("/pastes", bodyHasTextProperty, ...)`,
then the not-found fallback `next("Not found: " + req.originalUrl)`
feeding the general error handler. An error argument to `next` skips
every remaining non-error stage and reaches `errorResponse` directly.

Express defaults embedded here:
* Path literals match case-insensitively (`caseSensitive` is off), so
  the `pastes` segment is compared after ASCII folding; the parameter
  segment is captured verbatim.
* A route registered with `app.get` also serves HEAD requests
  (`Route._handles_method` rewrites HEAD to GET when no HEAD handler
  exists), so `HEAD /pastes` runs the list handler with status 200 (the
  transport then omits the body, which is outside this model).
* The router's automatic OPTIONS response can never fire in this app:
  it is wrapped around the router's end-of-stack callback and runs only
  when the stack finishes with neither a response nor an error
  (`if (err || options.length === 0) return old(err)`), but the
  catch-all not-found middleware `app.use((req,res,next) =>
  next(a template-literal string))` matches every request — OPTIONS
  included — and always signals a string error, which the terminal
  error handler answers. Hence `OPTIONS /pastes`, like every other
  method without a route, is answered 500 by the error handler's
  defaults.

Convention: `req.path` is the list of decoded path segments; Express's
default `strict` routing (trailing-slash tolerance) is abstracted into
that segmentation. -/
def handle (st : AppState) (req : Request) : Response × AppState :=
  match req.path with
  | seg :: pid :: _ =>
    if asciiLower seg = "pastes" then pastesLookup st pid
    else (errorResponse (.strE ("Not found: " ++ originalUrl req)), st)
  | [seg] =>
    if asciiLower seg = "pastes" then
      if req.method = "GET" ∨ req.method = "HEAD" then
        (⟨200, .jsonList st.pastes⟩, st)
      else if req.method = "POST" then
        match bodyHasTextProperty req.body with
        | some e => (errorResponse e, st)
        | none => postPastes st req.body
      else (errorResponse (.strE ("Not found: " ++ originalUrl req)), st)
    else (errorResponse (.strE ("Not found: " ++ originalUrl req)), st)
  | [] => (errorResponse (.strE ("Not found: " ++ originalUrl req)), st)

/-- The startup computation
`let lastPasteId = pastes.reduce((maxId, paste) => Math.max(maxId, paste.id), 0)`
applied to the seed records loaded from the static data file. -/
def initState (seed : List Paste) : AppState :=
  ⟨seed, seed.foldl (fun m p => max m p.id) 0⟩

/-- Run a list of requests in order, collecting the responses and the
final state. -/
def runAll (st : AppState) : List Request → List Response × AppState
  | [] => ([], st)
  | r :: rest =>
    ((handle st r).1 :: (runAll (handle st r).2 rest).1,
      (runAll (handle st r).2 rest).2)

/-- The state invariant maintained by the application: every stored id
is at most the counter, and the counter is nonnegative (the seed fold
starts at `0` and creations only increment). -/
def WF (st : AppState) : Prop :=
  (∀ p ∈ st.pastes, p.id ≤ st.lastPasteId) ∧ 0 ≤ st.lastPasteId

/-- Number of creation responses (status 201) in a response list; only
the `POST /pastes` success path ever answers 201. -/
def countCreations (resps : List Response) : Nat :=
  resps.countP (fun r => r.status == 201)

/-- The ids of the records returned by the creation responses (status
201) in a response list, in order. -/
def createdIds (resps : List Response) : List Int :=
  resps.filterMap fun r =>
    match r.body with
    | .jsonData p => if r.status == 201 then some p.id else none
    | _ => none

/-- Decimal digits of a natural number, most significant first
(modelling JavaScript number-to-string conversion for the nonnegative
integers the app prints into paths). -/
def natDigits (n : Nat) : List Char :=
  if h : n < 10 then [Char.ofNat (48 + n)]
  else natDigits (n / 10) ++ [Char.ofNat (48 + n % 10)]
termination_by n
decreasing_by exact Nat.div_lt_self (by omega) (by omega)

/-- Decimal string of a natural number. -/
def natRepr (n : Nat) : String := ⟨natDigits n⟩

/-- Decimal string of an integer. -/
def intRepr (i : Int) : String :=
  if i < 0 then ⟨'-' :: natDigits (-i).toNat⟩ else natRepr i.toNat

/-- A concrete record in the shape of the seeded data, used to
instantiate the general theorems. -/
def samplePaste : Paste :=
  ⟨1, .str "sample", .undefined, .undefined, .undefined, .str "sample text", .undefined⟩

/-- A concrete server state: the startup state for a one-record seed. -/
def sampleState : AppState := initState [samplePaste]

/-- A concrete valid creation body, `{data: {text: "hello"}}`. -/
def validBody : JSVal := .obj [("data", .obj [("text", .str "hello")])]

/-! ## Supporting lemmas -/

theorem le_foldlMaxId (l : List Paste) (a : Int) :
    a ≤ l.foldl (fun m p => max m p.id) a := by
  induction l generalizing a with
  | nil => simp
  | cons q rest ih =>
    simp only [List.foldl_cons]
    exact le_trans (le_max_left a q.id) (ih (max a q.id))

theorem mem_le_foldlMaxId (l : List Paste) (a : Int) (p : Paste) (hp : p ∈ l) :
    p.id ≤ l.foldl (fun m p => max m p.id) a := by
  induction l generalizing a with
  | nil => cases hp
  | cons q rest ih =>
    simp only [List.foldl_cons]
    rcases List.mem_cons.mp hp with h | h
    · subst h
      exact le_trans (le_max_right a p.id) (le_foldlMaxId rest (max a p.id))
    · exact ih (max a q.id) h

theorem foldlMaxId_choice (l : List Paste) (a : Int) :
    l.foldl (fun m p => max m p.id) a = a ∨
      ∃ p ∈ l, l.foldl (fun m p => max m p.id) a = p.id := by
  induction l generalizing a with
  | nil => exact Or.inl rfl
  | cons q rest ih =>
    simp only [List.foldl_cons]
    rcases ih (max a q.id) with h | ⟨p, hp, h⟩
    · rcases max_choice a q.id with hm | hm
      · exact Or.inl (h.trans hm)
      · exact Or.inr ⟨q, List.mem_cons_self q rest, h.trans hm⟩
    · exact Or.inr ⟨p, List.mem_cons_of_mem q hp, h⟩

theorem initState_WF (seed : List Paste) : WF (initState seed) :=
  ⟨fun p hp => mem_le_foldlMaxId seed 0 p hp, le_foldlMaxId seed 0⟩

theorem digitChar_spec (d : Nat) (h : d < 10) :
    (Char.ofNat (48 + d)).isDigit = true ∧ (Char.ofNat (48 + d)).toNat = 48 + d := by
  interval_cases d <;> exact ⟨by decide, by decide⟩

theorem digitChar_not_ws (d : Nat) (h : d < 10) :
    jsWhitespace (Char.ofNat (48 + d)) = false := by
  interval_cases d <;> decide

theorem digitChar_ne (d : Nat) (h : d < 10) :
    ∀ c ∈ (['+', '-', 'x', 'X', 'o', 'O', 'b', 'B'] : List Char),
      Char.ofNat (48 + d) ≠ c := by
  interval_cases d <;> (intro c hc; fin_cases hc <;> decide)

theorem digitsToNat_append (xs ys : List Char) (acc : Nat) :
    digitsToNat (xs ++ ys) acc = digitsToNat ys (digitsToNat xs acc) := by
  induction xs generalizing acc with
  | nil => rfl
  | cons c rest ih =>
    simp only [List.cons_append, digitsToNat]
    exact ih _

theorem digitsToNat_natDigits (n : Nat) :
    ∀ acc, digitsToNat (natDigits n) acc =
      acc * 10 ^ (natDigits n).length + n := by
  induction n using Nat.strong_induction_on with
  | _ n ih =>
    intro acc
    by_cases h : n < 10
    · rw [natDigits, dif_pos h]
      obtain ⟨h1, h2⟩ := digitChar_spec n h
      simp only [digitsToNat, h2, List.length_cons, List.length_nil, pow_one]
      omega
    · rw [natDigits, dif_neg h, digitsToNat_append]
      have hlt : n / 10 < n := Nat.div_lt_self (by omega) (by omega)
      rw [ih (n / 10) hlt acc]
      obtain ⟨h1, h2⟩ := digitChar_spec (n % 10) (Nat.mod_lt n (by omega))
      simp only [digitsToNat, h2, List.length_append, List.length_cons,
        List.length_nil]
      rw [pow_succ, ← mul_assoc]
      generalize acc * 10 ^ (natDigits (n / 10)).length = A
      omega

theorem natDigits_ne_nil (n : Nat) : natDigits n ≠ [] := by
  rw [natDigits]
  split
  · simp
  · simp

theorem natDigits_mem (n : Nat) :
    ∀ c ∈ natDigits n, ∃ d, d < 10 ∧ c = Char.ofNat (48 + d) := by
  induction n using Nat.strong_induction_on with
  | _ n ih =>
    intro c hc
    rw [natDigits] at hc
    split at hc
    · next h =>
      rw [List.mem_singleton] at hc
      exact ⟨n, h, hc⟩
    · next h =>
      rw [List.mem_append] at hc
      rcases hc with hc | hc
      · exact ih (n / 10) (Nat.div_lt_self (by omega) (by omega)) c hc
      · rw [List.mem_singleton] at hc
        exact ⟨n % 10, Nat.mod_lt n (by omega), hc⟩

theorem dropWhile_eq_self_of_false (p : Char → Bool) (l : List Char)
    (h : ∀ x ∈ l, p x = false) : l.dropWhile p = l := by
  cases l with
  | nil => rfl
  | cons a t =>
    rw [List.dropWhile_cons, h a (List.mem_cons_self a t)]
    simp

theorem trimWhite_eq_self (l : List Char)
    (h : ∀ x ∈ l, jsWhitespace x = false) : trimWhite l = l := by
  unfold trimWhite
  rw [dropWhile_eq_self_of_false _ l h,
    dropWhile_eq_self_of_false _ l.reverse
      (fun x hx => h x (List.mem_reverse.mp hx))]
  exact List.reverse_reverse l

theorem splitDigits_all (cs : List Char)
    (h : ∀ x ∈ cs, x.isDigit = true) : splitDigits cs = (cs, []) := by
  induction cs with
  | nil => rfl
  | cons c rest ih =>
    unfold splitDigits
    rw [if_pos (h c (List.mem_cons_self c rest)),
      ih (fun x hx => h x (List.mem_cons_of_mem c hx))]

theorem decValue_scale_zero (m : Nat) : decValue m 0 = some (m : Int) := by
  simp [decValue]

theorem parseDec_digits (c : Char) (cs : List Char)
    (h : ∀ x ∈ c :: cs, x.isDigit = true) :
    parseDec (c :: cs) = some (digitsToNat (c :: cs) 0, 0) := by
  unfold parseDec
  rw [splitDigits_all (c :: cs) h]
  rfl

theorem parseDecValue_digits (c : Char) (cs : List Char)
    (h : ∀ x ∈ c :: cs, x.isDigit = true) :
    parseDecValue (c :: cs) = some ((digitsToNat (c :: cs) 0 : Nat) : Int) := by
  unfold parseDecValue
  rw [parseDec_digits c cs h, Option.some_bind]
  exact decValue_scale_zero _

theorem toNumber_one (c : Char) (htrim : trimWhite [c] = [c]) :
    toNumber ⟨[c]⟩ =
      (if c = '+' then parseDecValue []
       else if c = '-' then (parseDecValue []).map (fun k => -k)
       else parseDecValue [c]) := by
  unfold toNumber
  rw [show (String.mk [c]).data = [c] from rfl, htrim]

theorem toNumber_two (c x : Char) (rest : List Char)
    (htrim : trimWhite (c :: x :: rest) = c :: x :: rest) :
    toNumber ⟨c :: x :: rest⟩ =
      (if c = '+' then parseDecValue (x :: rest)
       else if c = '-' then (parseDecValue (x :: rest)).map (fun k => -k)
       else if c = '0' ∧ (x = 'x' ∨ x = 'X') then
         if rest.isEmpty then none
         else (parseRadix 16 rest 0).map (fun k : Nat => (k : Int))
       else if c = '0' ∧ (x = 'o' ∨ x = 'O') then
         if rest.isEmpty then none
         else (parseRadix 8 rest 0).map (fun k : Nat => (k : Int))
       else if c = '0' ∧ (x = 'b' ∨ x = 'B') then
         if rest.isEmpty then none
         else (parseRadix 2 rest 0).map (fun k : Nat => (k : Int))
       else parseDecValue (c :: x :: rest)) := by
  unfold toNumber
  rw [show (String.mk (c :: x :: rest)).data = c :: x :: rest from rfl, htrim]

theorem toNumber_natRepr (n : Nat) : toNumber (natRepr n) = some (n : Int) := by
  have hmem := natDigits_mem n
  have hdig : ∀ x ∈ natDigits n, x.isDigit = true := by
    intro x hx
    obtain ⟨d, hd, he⟩ := hmem x hx
    rw [he]
    exact (digitChar_spec d hd).1
  have hws : ∀ x ∈ natDigits n, jsWhitespace x = false := by
    intro x hx
    obtain ⟨d, hd, he⟩ := hmem x hx
    rw [he]
    exact digitChar_not_ws d hd
  have hval := digitsToNat_natDigits n 0
  have htrim : trimWhite (natDigits n) = natDigits n := trimWhite_eq_self _ hws
  cases hq : natDigits n with
  | nil => exact absurd hq (natDigits_ne_nil n)
  | cons c cs =>
    rw [hq] at htrim hval hdig
    obtain ⟨d0, hd0, hc0⟩ := hmem c (by rw [hq]; exact List.mem_cons_self c cs)
    have hplus : ¬(c = '+') := by
      rw [hc0]; exact digitChar_ne d0 hd0 '+' (by decide)
    have hminus : ¬(c = '-') := by
      rw [hc0]; exact digitChar_ne d0 hd0 '-' (by decide)
    have hfinal : digitsToNat (c :: cs) 0 = n := by
      rw [hval]
      simp
    cases hcs : cs with
    | nil =>
      rw [hcs] at htrim hdig hfinal
      have hgoal : toNumber (natRepr n) = toNumber ⟨[c]⟩ := by
        unfold natRepr
        rw [hq, hcs]
      rw [hgoal, toNumber_one c htrim, if_neg hplus, if_neg hminus,
        parseDecValue_digits c [] hdig, hfinal]
    | cons x rest =>
      rw [hcs] at htrim hdig hfinal
      obtain ⟨d1, hd1, hx1⟩ := hmem x
        (by rw [hq, hcs]; exact List.mem_cons_of_mem c (List.mem_cons_self x rest))
      have hno1 : ¬(c = '0' ∧ (x = 'x' ∨ x = 'X')) := by
        rintro ⟨-, h2 | h2⟩ <;> rw [hx1] at h2
        · exact digitChar_ne d1 hd1 'x' (by decide) h2
        · exact digitChar_ne d1 hd1 'X' (by decide) h2
      have hno2 : ¬(c = '0' ∧ (x = 'o' ∨ x = 'O')) := by
        rintro ⟨-, h2 | h2⟩ <;> rw [hx1] at h2
        · exact digitChar_ne d1 hd1 'o' (by decide) h2
        · exact digitChar_ne d1 hd1 'O' (by decide) h2
      have hno3 : ¬(c = '0' ∧ (x = 'b' ∨ x = 'B')) := by
        rintro ⟨-, h2 | h2⟩ <;> rw [hx1] at h2
        · exact digitChar_ne d1 hd1 'b' (by decide) h2
        · exact digitChar_ne d1 hd1 'B' (by decide) h2
      have hgoal : toNumber (natRepr n) = toNumber ⟨c :: x :: rest⟩ := by
        unfold natRepr
        rw [hq, hcs]
      rw [hgoal, toNumber_two c x rest htrim, if_neg hplus, if_neg hminus,
        if_neg hno1, if_neg hno2, if_neg hno3,
        parseDecValue_digits c (x :: rest) hdig, hfinal]

theorem toNumber_intRepr (i : Int) (h : 0 ≤ i) : toNumber (intRepr i) = some i := by
  unfold intRepr
  rw [if_neg (by omega), toNumber_natRepr]
  congr 1
  exact Int.toNat_of_nonneg h


theorem handle_lookup_eq (st : AppState) (m pid : String) (rest : List String)
    (b : JSVal) :
    handle st ⟨m, "pastes" :: pid :: rest, b⟩ = pastesLookup st pid := rfl

theorem handle_get_list_eq (st : AppState) (b : JSVal) :
    handle st ⟨"GET", ["pastes"], b⟩ = (⟨200, .jsonList st.pastes⟩, st) := rfl

theorem handle_post_eq (st : AppState) (b : JSVal) :
    handle st ⟨"POST", ["pastes"], b⟩ =
      (match bodyHasTextProperty b with
       | some e => (errorResponse e, st)
       | none => postPastes st b) := rfl

theorem validator_ok (b : JSVal) (h : bodyHasTextProperty b = none) :
    ∃ d, getData b = .ok d ∧ truthy (getProp d "text") = true := by
  cases hg : getData b with
  | error m =>
    simp only [bodyHasTextProperty, hg] at h
    exact Option.noConfusion h
  | ok d =>
    simp only [bodyHasTextProperty, hg] at h
    by_cases ht : truthy (getProp d "text")
    · exact ⟨d, rfl, ht⟩
    · rw [if_neg ht] at h; cases h

theorem validator_none_of_valid (b d : JSVal) (hd : getData b = .ok d)
    (ht : truthy (getProp d "text") = true) : bodyHasTextProperty b = none := by
  simp only [bodyHasTextProperty, hd, ht, if_true]

theorem validator_err_status (b : JSVal) (e : ErrVal)
    (h : bodyHasTextProperty b = some e) : (errorResponse e).status ≠ 201 := by
  cases hg : getData b with
  | error m =>
    simp only [bodyHasTextProperty, hg, Option.some.injEq] at h
    subst h
    simp [errorResponse]
  | ok d =>
    simp only [bodyHasTextProperty, hg] at h
    by_cases ht : truthy (getProp d "text")
    · rw [if_pos ht] at h; cases h
    · rw [if_neg ht] at h
      injection h with h2
      subst h2; decide

theorem handle_post_valid (st : AppState) (b d : JSVal)
    (hd : getData b = .ok d) (ht : truthy (getProp d "text") = true) :
    handle st ⟨"POST", ["pastes"], b⟩ =
      (⟨201, .jsonData (mkPaste d (st.lastPasteId + 1))⟩,
        ⟨st.pastes ++ [mkPaste d (st.lastPasteId + 1)], st.lastPasteId + 1⟩) := by
  rw [handle_post_eq, validator_none_of_valid b d hd ht]
  simp only [postPastes, hd]

theorem handle_pastesLength (st : AppState) (r : Request) :
    (handle st r).2.pastes.length =
      st.pastes.length + (if (handle st r).1.status = 201 then 1 else 0) := by
  obtain ⟨m, path, b⟩ := r
  unfold handle
  dsimp only
  split
  · rename_i seg pid rest
    split
    · unfold pastesLookup
      cases hf : findPaste st.pastes pid with
      | some p => simp
      | none => simp [errorResponse]
    · simp [errorResponse]
  · split
    · split
      · simp
      · split
        · cases hb : bodyHasTextProperty b with
          | some e =>
            have hne := validator_err_status b e hb
            simp [hne]
          | none =>
            unfold postPastes
            cases hg : getData b with
            | error mm => simp [errorResponse]
            | ok d => simp
        · simp [errorResponse]
    · simp [errorResponse]
  · simp [errorResponse]

theorem runAll_pastesLength (st : AppState) (rs : List Request) :
    (runAll st rs).2.pastes.length =
      st.pastes.length + countCreations (runAll st rs).1 := by
  induction rs generalizing st with
  | nil => simp [runAll, countCreations]
  | cons r rest ih =>
    simp only [runAll]
    rw [ih ((handle st r).2)]
    unfold countCreations
    rw [List.countP_cons, handle_pastesLength st r]
    by_cases hs : (handle st r).1.status = 201
    · simp [hs]; omega
    · simp [hs]

/-! ## Claims -/

/-- C7: for every `GET /pastes` request, the response is status 200 with
body `{data: <all stored records>}`, returning the store's sequence
itself — the records in insertion order (seed order followed by creation
order), with no filtering, reordering, or pagination — and the state is
unchanged. -/
theorem listPastes_returns_store (st : AppState) (b : JSVal) :
    handle st ⟨"GET", ["pastes"], b⟩ = (⟨200, .jsonList st.pastes⟩, st) := rfl

/-- C9: the resource-lookup stage for `/pastes/:pasteId` is mounted with
`app.use`, hence fires for every HTTP method: for any method string on
`/pastes/<id>` where the id matches a stored paste, the response is
status 200 with body `{data: foundPaste}`. -/
theorem lookup_any_method (st : AppState) (m pid : String) (b : JSVal)
    (p : Paste) (h : findPaste st.pastes pid = some p) :
    handle st ⟨m, ["pastes", pid], b⟩ = (⟨200, .jsonData p⟩, st) := by
  rw [handle_lookup_eq]
  unfold pastesLookup
  rw [h]

/-- Witness for C9: a `DELETE /pastes/1` request against the sample
store is answered 200 with the found record. -/
theorem lookup_any_method_witness :
    handle sampleState ⟨"DELETE", ["pastes", "1"], .obj []⟩ =
      (⟨200, .jsonData samplePaste⟩, sampleState) :=
  lookup_any_method sampleState "DELETE" "1" (.obj []) samplePaste rfl

/-- C6: the centralized error responder answers 500 with
`{error: "Something went wrong!"}` for a signaled plain string and for
an error object lacking both fields, and uses the carried `status` and
`message` as the response status and error body when both are present. -/
theorem errorResponder_defaults (s msg : String) (code : Nat) :
    errorResponse (.strE s) = ⟨500, .jsonError "Something went wrong!"⟩ ∧
    errorResponse (.objE none none) = ⟨500, .jsonError "Something went wrong!"⟩ ∧
    errorResponse (.objE (some code) (some msg)) = ⟨code, .jsonError msg⟩ :=
  ⟨rfl, rfl, rfl⟩

/-- C2: for `GET /pastes/:pasteId`, if some stored paste's id equals the
path parameter after numeric coercion, the response is 200 with
`{data: foundPaste}` for a matching stored paste and the exchange ends
with the state unchanged; otherwise the response is 404 with
`{error: "Paste id not found: <id>"}`. -/
theorem getPasteById_contract (st : AppState) (pid : String) (b : JSVal) :
    ((∃ p ∈ st.pastes, toNumber pid = some p.id) →
      ∃ p, p ∈ st.pastes ∧ toNumber pid = some p.id ∧
        handle st ⟨"GET", ["pastes", pid], b⟩ = (⟨200, .jsonData p⟩, st)) ∧
    ((∀ p ∈ st.pastes, toNumber pid ≠ some p.id) →
      handle st ⟨"GET", ["pastes", pid], b⟩ =
        (⟨404, .jsonError ("Paste id not found: " ++ pid)⟩, st)) := by
  constructor
  · rintro ⟨p, hp, hn⟩
    cases hf : findPaste st.pastes pid with
    | none =>
      exfalso
      unfold findPaste at hf
      rw [hn] at hf
      have := List.find?_eq_none.mp hf p hp
      simp at this
    | some q =>
      have hf' : st.pastes.find? (fun q => q.id == p.id) = some q := by
        unfold findPaste at hf
        rw [hn] at hf
        exact hf
      have hqid : q.id = p.id := by
        have := List.find?_some hf'
        exact beq_iff_eq.mp this
      refine ⟨q, List.mem_of_find?_eq_some hf', by rw [hn, hqid], ?_⟩
      rw [handle_lookup_eq]
      unfold pastesLookup
      rw [hf]
  · intro hall
    have hf : findPaste st.pastes pid = none := by
      unfold findPaste
      cases hn : toNumber pid with
      | none => rfl
      | some n =>
        apply List.find?_eq_none.mpr
        intro q hq
        simp only [beq_iff_eq]
        intro he
        exact hall q hq (by rw [hn, he])
    rw [handle_lookup_eq]
    unfold pastesLookup
    rw [hf]
    rfl

/-- Witness for C2: `GET /pastes/1` against the sample store finds the
stored record with id 1 and answers 200. -/
theorem getPasteById_contract_witness :
    ∃ p, p ∈ sampleState.pastes ∧ toNumber "1" = some p.id ∧
      handle sampleState ⟨"GET", ["pastes", "1"], .obj []⟩ =
        (⟨200, .jsonData p⟩, sampleState) :=
  (getPasteById_contract sampleState "1" (.obj [])).1
    ⟨samplePaste, List.mem_singleton.mpr rfl, rfl⟩

/-- C1 counterexample: a `GET /unknown/path` request is answered with
status 500 and body `{error: "Something went wrong!"}` — not, as
claimed, with status 404 and body `{error: "Not found: /unknown/path"}`.
The fallback signals the plain string `"Not found: /unknown/path"`,
which lacks `status`/`message` properties, so the error handler's
defaults apply. -/
theorem unmatchedRoute_counterexample :
    (handle sampleState ⟨"GET", ["unknown", "path"], .obj []⟩).1 =
      ⟨500, .jsonError "Something went wrong!"⟩ ∧
    (handle sampleState ⟨"GET", ["unknown", "path"], .obj []⟩).1 ≠
      ⟨404, .jsonError "Not found: /unknown/path"⟩ := by
  constructor
  · rfl
  · intro hcon
    have h5 : (handle sampleState ⟨"GET", ["unknown", "path"], .obj []⟩).1.status
        = 500 := rfl
    rw [hcon] at h5
    exact absurd h5 (by decide)

/-- C1 (amended): for every request matched by no earlier stage — the
path is not a (case-insensitively matched) `/pastes/<param>...` prefix
handled by the lookup middleware, and when it is exactly `/pastes` the
method is none of GET, HEAD (served by the GET route through Express's
HEAD-to-GET dispatch) or POST — the fallback signals the plain string
`"Not found: <original request path>"`; because a plain string carries
no `status`/`message` fields, the general error handler responds with
status 500 and JSON body `{error: "Something went wrong!"}`, leaving the
state unchanged. This scope includes `OPTIONS /pastes`: the router's
automatic OPTIONS default fires only when its stack ends with neither a
response nor an error, and this app's catch-all not-found middleware
matches every request and always signals a string error first (see the
doc comment on `handle`). -/
theorem unmatchedRoute_500 (st : AppState) (req : Request)
    (h1 : ∀ seg pid rest, req.path = seg :: pid :: rest →
      asciiLower seg ≠ "pastes")
    (h2 : ∀ seg, req.path = [seg] → asciiLower seg = "pastes" →
      req.method ≠ "GET" ∧ req.method ≠ "HEAD" ∧ req.method ≠ "POST") :
    handle st req = (⟨500, .jsonError "Something went wrong!"⟩, st) := by
  obtain ⟨m, path, b⟩ := req
  dsimp only at h1 h2
  unfold handle
  dsimp only
  split
  · rename_i seg pid rest
    rw [if_neg (h1 seg pid rest rfl)]
    rfl
  · rename_i seg
    by_cases hs : asciiLower seg = "pastes"
    · obtain ⟨hg, hh, hp⟩ := h2 seg rfl hs
      rw [if_pos hs, if_neg (not_or.mpr ⟨hg, hh⟩), if_neg hp]
      rfl
    · rw [if_neg hs]
      rfl
  · rfl

/-- Witness for C1 (amended): the concrete unmatched request
`GET /unknown/path` gets the 500 default error response. -/
theorem unmatchedRoute_500_witness :
    handle sampleState ⟨"GET", ["unknown", "path"], .obj []⟩ =
      (⟨500, .jsonError "Something went wrong!"⟩, sampleState) :=
  unmatchedRoute_500 sampleState ⟨"GET", ["unknown", "path"], .obj []⟩
    (fun seg pid rest h => by
      simp only [List.cons.injEq] at h
      rw [← h.1]
      decide)
    (fun seg h => by simp at h)

/-- C3 counterexample: the `POST /pastes` body `{data: null}` lacks a
truthy `data.text`, yet the response is status 500 (the destructuring
`const { data: { text } = {} } = req.body` throws a `TypeError`, whose
`message` the error handler echoes), not status 400. -/
theorem missingText_counterexample :
    (handle sampleState ⟨"POST", ["pastes"], .obj [("data", .null)]⟩).1 =
      ⟨500, .jsonError destructureErrorMsg⟩ ∧
    (handle sampleState ⟨"POST", ["pastes"], .obj [("data", .null)]⟩).1.status
      ≠ 400 :=
  ⟨rfl, by decide⟩

/-- C3 (amended): for every `POST /pastes` request whose body
destructures without throwing — `req.body.data` is absent (treated as
absent text, not a crash) or any non-null value, including an empty
object — a falsy/absent `data.text` yields status 400 with body
`{error: "A 'text' property is required."}` and no state change, and
control is forwarded unchanged by the validator when `data.text` is
truthy. (A body whose `data` property is `null` instead throws during
destructuring and is answered 500.) -/
theorem missingText_400 (st : AppState) (b d : JSVal)
    (hd : getData b = .ok d) :
    (truthy (getProp d "text") = false →
      handle st ⟨"POST", ["pastes"], b⟩ =
        (⟨400, .jsonError "A 'text' property is required."⟩, st)) ∧
    (truthy (getProp d "text") = true → bodyHasTextProperty b = none) := by
  constructor
  · intro ht
    rw [handle_post_eq]
    have hv : bodyHasTextProperty b =
        some (.objE (some 400) (some "A 'text' property is required.")) := by
      simp [bodyHasTextProperty, hd, ht]
    rw [hv]
    rfl
  · intro ht
    exact validator_none_of_valid b d hd ht

/-- Witness for C3 (amended): the body `{data: {}}` (empty data object)
is answered 400 with the required-property error. -/
theorem missingText_400_witness :
    handle sampleState ⟨"POST", ["pastes"], .obj [("data", .obj [])]⟩ =
      (⟨400, .jsonError "A 'text' property is required."⟩, sampleState) :=
  (missingText_400 sampleState (.obj [("data", .obj [])]) (.obj []) rfl).1 rfl

/-- C10: a successful creation stores exactly the seven fields `id`,
`name`, `syntax`, `exposure`, `expiration`, `text`, `user_id` (the new
record is `mkPaste`, built from precisely those six body lookups plus
the assigned id); the new store is the old one with the record appended,
so no previously stored record is modified; and any two bodies whose
`data` agrees on those six fields produce identical exchanges, so
additional properties inside `data` are silently discarded. -/
theorem create_frame (st : AppState) (b d : JSVal)
    (hd : getData b = .ok d) (ht : truthy (getProp d "text") = true) :
    handle st ⟨"POST", ["pastes"], b⟩ =
      (⟨201, .jsonData (mkPaste d (st.lastPasteId + 1))⟩,
        ⟨st.pastes ++ [mkPaste d (st.lastPasteId + 1)], st.lastPasteId + 1⟩) ∧
    (∀ b' d', getData b' = .ok d' →
      (∀ k ∈ (["name", "syntax", "exposure", "expiration", "text",
          "user_id"] : List String), getProp d' k = getProp d k) →
      handle st ⟨"POST", ["pastes"], b'⟩ = handle st ⟨"POST", ["pastes"], b⟩) := by
  have hmain := handle_post_valid st b d hd ht
  refine ⟨hmain, ?_⟩
  intro b' d' hd' hagree
  have htext : getProp d' "text" = getProp d "text" := hagree "text" (by simp)
  have ht' : truthy (getProp d' "text") = true := by rw [htext]; exact ht
  rw [handle_post_valid st b' d' hd' ht', hmain]
  have hmk : mkPaste d' (st.lastPasteId + 1) = mkPaste d (st.lastPasteId + 1) := by
    unfold mkPaste
    rw [hagree "name" (by simp), hagree "syntax" (by simp),
      hagree "exposure" (by simp), hagree "expiration" (by simp),
      hagree "text" (by simp), hagree "user_id" (by simp)]
  rw [hmk]

/-- Witness for C10: creating with an extra `mood` property inside
`data` appends exactly the seven-field record and stores nothing else. -/
theorem create_frame_witness :
    handle sampleState ⟨"POST", ["pastes"],
        .obj [("data", .obj [("text", .str "hi"), ("mood", .str "x")])]⟩ =
      (⟨201, .jsonData (mkPaste (.obj [("text", .str "hi"), ("mood", .str "x")])
          (sampleState.lastPasteId + 1))⟩,
        ⟨sampleState.pastes ++
            [mkPaste (.obj [("text", .str "hi"), ("mood", .str "x")])
              (sampleState.lastPasteId + 1)],
          sampleState.lastPasteId + 1⟩) :=
  (create_frame sampleState
    (.obj [("data", .obj [("text", .str "hi"), ("mood", .str "x")])])
    (.obj [("text", .str "hi"), ("mood", .str "x")]) rfl rfl).1

/-- C5: for every `POST /pastes` request with a truthy `data.text`, the
response is status 201 with body `{data: newRecord}` where
`newRecord.text` equals the submitted text, `newRecord.id` is a newly
assigned integer (the incremented counter, distinct from every stored
id), and the new record is subsequently retrievable via
`GET /pastes/<id>`. -/
theorem create_then_fetch (st : AppState) (b d : JSVal)
    (hd : getData b = .ok d) (ht : truthy (getProp d "text") = true)
    (hwf : WF st) :
    ∃ newP : Paste, ∃ st' : AppState,
      handle st ⟨"POST", ["pastes"], b⟩ = (⟨201, .jsonData newP⟩, st') ∧
      newP.text = getProp d "text" ∧
      newP.id = st.lastPasteId + 1 ∧
      (∀ p ∈ st.pastes, p.id ≠ newP.id) ∧
      handle st' ⟨"GET", ["pastes", intRepr newP.id], .obj []⟩ =
        (⟨200, .jsonData newP⟩, st') := by
  obtain ⟨hle, hnn⟩ := hwf
  refine ⟨mkPaste d (st.lastPasteId + 1),
    ⟨st.pastes ++ [mkPaste d (st.lastPasteId + 1)], st.lastPasteId + 1⟩,
    handle_post_valid st b d hd ht, rfl, rfl, ?_, ?_⟩
  · intro p hp hcon
    have hb := hle p hp
    have hid : (mkPaste d (st.lastPasteId + 1)).id = st.lastPasteId + 1 := rfl
    rw [hcon, hid] at hb
    omega
  · rw [handle_lookup_eq]
    unfold pastesLookup
    dsimp only
    have hid : (mkPaste d (st.lastPasteId + 1)).id = st.lastPasteId + 1 := rfl
    have hfind : findPaste (st.pastes ++ [mkPaste d (st.lastPasteId + 1)])
        (intRepr (mkPaste d (st.lastPasteId + 1)).id) =
          some (mkPaste d (st.lastPasteId + 1)) := by
      unfold findPaste
      rw [toNumber_intRepr _ (by rw [hid]; omega)]
      dsimp only
      rw [List.find?_append]
      have hfst : st.pastes.find?
          (fun p => p.id == (mkPaste d (st.lastPasteId + 1)).id) = none := by
        apply List.find?_eq_none.mpr
        intro q hq
        simp only [beq_iff_eq]
        intro he
        have hb := hle q hq
        rw [he, hid] at hb
        omega
      rw [hfst]
      simp
    rw [hfind]

/-- Witness for C5: creating `{data: {text: "hello"}}` against the
sample store and fetching it back. -/
theorem create_then_fetch_witness :
    ∃ newP : Paste, ∃ st' : AppState,
      handle sampleState ⟨"POST", ["pastes"], validBody⟩ =
        (⟨201, .jsonData newP⟩, st') ∧
      newP.text = getProp (.obj [("text", .str "hello")]) "text" ∧
      newP.id = sampleState.lastPasteId + 1 ∧
      (∀ p ∈ sampleState.pastes, p.id ≠ newP.id) ∧
      handle st' ⟨"GET", ["pastes", intRepr newP.id], .obj []⟩ =
        (⟨200, .jsonData newP⟩, st') :=
  create_then_fetch sampleState validBody (.obj [("text", .str "hello")])
    rfl rfl (initState_WF [samplePaste])

/-- C8: `GET /pastes` is read-only and idempotent — it leaves the state
unchanged and an immediately repeated call returns the identical
response — and after any request sequence from startup, the returned
array's length equals the seed count plus the number of successful
creations (201 responses) so far. -/
theorem list_idempotent_and_length (seed : List Paste) (rs : List Request)
    (b b' : JSVal) :
    handle ((runAll (initState seed) rs).2) ⟨"GET", ["pastes"], b⟩ =
      (⟨200, .jsonList ((runAll (initState seed) rs).2).pastes⟩,
        (runAll (initState seed) rs).2) ∧
    (handle ((handle ((runAll (initState seed) rs).2)
          ⟨"GET", ["pastes"], b⟩).2) ⟨"GET", ["pastes"], b'⟩).1 =
      (handle ((runAll (initState seed) rs).2) ⟨"GET", ["pastes"], b⟩).1 ∧
    ((runAll (initState seed) rs).2).pastes.length =
      seed.length + countCreations (runAll (initState seed) rs).1 :=
  ⟨rfl, rfl, runAll_pastesLength (initState seed) rs⟩

theorem createdIds_cons_201 (p : Paste) (tail : List Response) :
    createdIds (⟨201, .jsonData p⟩ :: tail) = p.id :: createdIds tail := rfl

theorem runPosts_createdIds (st : AppState) (bodies : List JSVal)
    (hv : ∀ b ∈ bodies, bodyHasTextProperty b = none) :
    createdIds (runAll st (bodies.map (fun b => ⟨"POST", ["pastes"], b⟩))).1 =
      (List.range bodies.length).map
        (fun k : Nat => st.lastPasteId + 1 + (k : Int)) := by
  induction bodies generalizing st with
  | nil => rfl
  | cons b rest ih =>
    obtain ⟨d, hd, ht⟩ := validator_ok b (hv b (List.mem_cons_self b rest))
    have hstep := handle_post_valid st b d hd ht
    simp only [List.map_cons, runAll, hstep]
    rw [createdIds_cons_201]
    rw [ih _ (fun b' hb' => hv b' (List.mem_cons_of_mem b hb'))]
    simp only [List.length_cons, List.range_succ_eq_map, List.map_cons,
      List.map_map]
    congr 1
    · simp [mkPaste]
    · apply List.map_congr_left
      intro k hk
      dsimp only [Function.comp]
      push_cast
      ring

/-- C4: creating N records in sequence (valid creation bodies) yields N
distinct, strictly increasing ids: the list of created ids is exactly
`m+1, m+2, ..., m+N` where `m` is the maximum id among the seeded
records — so the first creation gets the seed maximum plus one and each
subsequent creation the previous id plus one. Stated for a nonempty
seed with nonnegative ids (as the seeded data has), since the startup
counter `pastes.reduce((maxId, p) => Math.max(maxId, p.id), 0)` starts
its fold at 0. -/
theorem createN_ids (seed : List Paste) (bodies : List JSVal)
    (hne : seed ≠ []) (hpos : ∀ p ∈ seed, 0 ≤ p.id)
    (hv : ∀ b ∈ bodies, bodyHasTextProperty b = none) :
    ∃ m : Int,
      (∃ p ∈ seed, p.id = m) ∧ (∀ p ∈ seed, p.id ≤ m) ∧
      createdIds (runAll (initState seed)
          (bodies.map (fun b => ⟨"POST", ["pastes"], b⟩))).1 =
        (List.range bodies.length).map (fun k : Nat => m + 1 + (k : Int)) ∧
      (createdIds (runAll (initState seed)
          (bodies.map (fun b => ⟨"POST", ["pastes"], b⟩))).1).length
        = bodies.length ∧
      List.Pairwise (· < ·) (createdIds (runAll (initState seed)
          (bodies.map (fun b => ⟨"POST", ["pastes"], b⟩))).1) ∧
      (createdIds (runAll (initState seed)
          (bodies.map (fun b => ⟨"POST", ["pastes"], b⟩))).1).Nodup := by
  have hids := runPosts_createdIds (initState seed) bodies hv
  have hr : List.Pairwise (· < ·) (List.range bodies.length) :=
    List.sorted_lt_range bodies.length
  have hpw : List.Pairwise (· < ·)
      ((List.range bodies.length).map
        (fun k : Nat => (initState seed).lastPasteId + 1 + (k : Int))) :=
    List.pairwise_map.mpr (hr.imp (fun hab => by omega))
  refine ⟨(initState seed).lastPasteId, ?_,
    fun p hp => mem_le_foldlMaxId seed 0 p hp, hids,
    by rw [hids]; simp, by rw [hids]; exact hpw,
    by rw [hids]; exact hpw.imp (fun h => ne_of_lt h)⟩
  rcases foldlMaxId_choice seed 0 with h0 | ⟨p, hp, hfe⟩
  · cases seed with
    | nil => exact absurd rfl hne
    | cons p0 tl =>
      refine ⟨p0, List.mem_cons_self p0 tl, ?_⟩
      have hub := mem_le_foldlMaxId (p0 :: tl) 0 p0 (List.mem_cons_self p0 tl)
      have hlb := hpos p0 (List.mem_cons_self p0 tl)
      show p0.id = (p0 :: tl).foldl (fun m p => max m p.id) 0
      omega
  · exact ⟨p, hp, hfe.symm⟩

/-- Witness for C4: two creations against the one-record sample seed
(maximum seeded id 1) receive the ids 2 and 3. -/
theorem createN_ids_witness :
    ∃ m : Int,
      (∃ p ∈ [samplePaste], p.id = m) ∧ (∀ p ∈ [samplePaste], p.id ≤ m) ∧
      createdIds (runAll (initState [samplePaste])
          (([validBody, validBody] : List JSVal).map
            (fun b => ⟨"POST", ["pastes"], b⟩))).1 =
        (List.range ([validBody, validBody] : List JSVal).length).map
          (fun k : Nat => m + 1 + (k : Int)) ∧
      (createdIds (runAll (initState [samplePaste])
          (([validBody, validBody] : List JSVal).map
            (fun b => ⟨"POST", ["pastes"], b⟩))).1).length
        = ([validBody, validBody] : List JSVal).length ∧
      List.Pairwise (· < ·) (createdIds (runAll (initState [samplePaste])
          (([validBody, validBody] : List JSVal).map
            (fun b => ⟨"POST", ["pastes"], b⟩))).1) ∧
      (createdIds (runAll (initState [samplePaste])
          (([validBody, validBody] : List JSVal).map
            (fun b => ⟨"POST", ["pastes"], b⟩))).1).Nodup :=
  createN_ids [samplePaste] [validBody, validBody] (by simp)
    (fun p hp => by rw [List.mem_singleton] at hp; subst hp; decide)
    (fun b hb => by
      rcases List.mem_cons.mp hb with h | h
      · subst h; rfl
      · rw [List.mem_singleton] at h; subst h; rfl)
